import Mathlib

/-!
Shallow embedding of `src/daemon/default_vm_image_vault.cpp` (multipass's
`DefaultVMImageVault`).

Modelling conventions:
  - Qt/JSON values are modelled by the inductive `Json`; the Qt accessor
    defaults (`toInt` of a missing key is 0, `toString` of a non-string is a
    null QString, ...) are modelled explicitly.
  - The filesystem is an association list from absolute path to file content
    (a `String`); directories are represented by the files they contain.
    Hashing, xz decoding and downloading are oracles carried in `Env`.
  - `std::chrono::system_clock::time_point` is its tick count, an `Int`;
    the current time is `Env.now`, fixed for the duration of one call.
  - C++ exceptions are modelled with `Except`: every fallible operation
    returns its `Except` outcome together with the (possibly mutated) state,
    since a thrown exception does not roll back earlier mutations.
  - `ProgressMonitor` callbacks carry no state and are not modelled.
  - The concurrent dedup protocol of the alias branch is modelled separately
    as a transition system (`CState`, `cnext`) at the end of the definitions.
-/

/-- Modelled from the spec: `multipass/query.h` is not among the sources; the
spec section 3 lists `query_type` as one of Alias, HttpUrl, LocalFile in that
order, giving the C++ enum encoding Alias = 0, HttpUrl = 1, LocalFile = 2. -/
inductive QueryType where
  | Alias
  | HttpUrl
  | LocalFile
deriving DecidableEq, Repr

def QueryType.toInt : QueryType → Int
  | .Alias => 0
  | .HttpUrl => 1
  | .LocalFile => 2

/-- `static_cast<mp::Query::Type>(n)`: only values written by
`query_to_json` or the default 0 of a missing JSON field are cast back. -/
def QueryType.ofInt : Int → QueryType
  | 1 => .HttpUrl
  | 2 => .LocalFile
  | _ => .Alias

/-- Modelled from the spec: `multipass/query.h` is not among the sources;
field list from spec section 3. -/
structure Query where
  name : String
  release : String
  persistent : Bool
  remote_name : String
  query_type : QueryType
deriving DecidableEq, Repr

/-- Modelled from the spec: `multipass/vm_image.h` is not among the sources;
field list from spec section 3 and the uses in the .cpp file. -/
structure VMImage where
  image_path : String
  kernel_path : String
  initrd_path : String
  id : String
  original_release : String
  current_release : String
  release_date : String
  aliases : List String
deriving DecidableEq, Repr

def emptyVMImage : VMImage :=
  { image_path := "", kernel_path := "", initrd_path := "", id := "",
    original_release := "", current_release := "", release_date := "", aliases := [] }

/-- Modelled from the spec: `multipass/vm_image_info.h` is not among the
sources; field list from spec section 3 and the uses in the .cpp file. -/
structure VMImageInfo where
  id : String
  release : String
  release_title : String
  version : String
  aliases : List String
  image_location : String
  kernel_location : String
  initrd_location : String
  size : Int
deriving DecidableEq, Repr

/-- Modelled from the spec: `multipass/vm_image_vault.h` is not among the
sources; `VaultRecord` per spec section 3. `last_accessed` is the tick count
of the `system_clock::time_point`. -/
structure VaultRecord where
  image : VMImage
  query : Query
  last_accessed : Int
deriving DecidableEq, Repr

/-- A JSON value as manipulated through Qt's `QJsonValue`. -/
inductive Json where
  | str : String → Json
  | int : Int → Json
  | bool : Bool → Json
  | arr : List Json → Json
  | obj : List (String × Json) → Json

/-- Association-list lookup keyed by `String` (models `unordered_map::find`
and `QJsonObject::operator[]`). -/
def alookup (k : String) : List (String × α) → Option α
  | [] => none
  | (k', v) :: t => if k' = k then some v else alookup k t

/-- `map[k] = v`: replace the binding if present, append otherwise. -/
def aset (k : String) (v : α) : List (String × α) → List (String × α)
  | [] => [(k, v)]
  | (k', v') :: t => if k' = k then (k, v) :: t else (k', v') :: aset k v t

/-- `map.erase(k)` / `QFile::remove`. -/
def aerase (k : String) : List (String × α) → List (String × α)
  | [] => []
  | (k', v') :: t => if k' = k then aerase k t else (k', v') :: aerase k t

/-- Structural character-list split (the separators used by the code are the
single characters `/` and `.`). -/
def splitOnChar (c : Char) : List Char → List (List Char)
  | [] => [[]]
  | x :: t =>
    match splitOnChar c t with
    | [] => [[]]
    | h :: r => if x = c then [] :: h :: r else (x :: h) :: r

/-- `QString::startsWith`. -/
def startsWithS (s pre : String) : Bool :=
  pre.data.isPrefixOf s.data

/-- `QString::endsWith`. -/
def endsWithS (s suf : String) : Bool :=
  suf.data.isSuffixOf s.data

/-- `QString::remove(".xz")`: drop every (left-to-right, non-overlapping)
occurrence of `.xz`. -/
def removeXz : List Char → List Char
  | [] => []
  | '.' :: 'x' :: 'z' :: t => removeXz t
  | x :: t => x :: removeXz t

/-- `QString::remove(".xz")` on a `String`. -/
def removeXzS (s : String) : String :=
  String.mk (removeXz s.data)

/-- `QJsonObject::operator[]`: a missing key yields `QJsonValue::Undefined`,
modelled as `none`. -/
def jGet (o : List (String × Json)) (k : String) : Option Json :=
  alookup k o

/-- `QJsonValue::toString`: a missing or non-string value yields a null
`QString`, modelled as `none`. -/
def jToString : Option Json → Option String
  | some (.str s) => some s
  | _ => none

/-- `QJsonValue::toInt` with default 0 (only integral values ever stored). -/
def jToInt : Option Json → Int
  | some (.int n) => n
  | _ => 0

/-- `QJsonValue::toDouble` then `static_cast<qint64>`, on the integral
values this codec writes (double rounding above 2^53 is not modelled). -/
def jToDouble : Option Json → Int
  | some (.int n) => n
  | _ => 0

/-- `QJsonValue::isBool` plus `toBool`. -/
def jToBool : Option Json → Option Bool
  | some (.bool b) => some b
  | _ => none

/-- `QJsonValue::toObject`: non-objects yield the empty object. -/
def jToObject : Option Json → List (String × Json)
  | some (.obj o) => o
  | _ => []

/-- `QJsonValue::toArray`: non-arrays yield the empty array. -/
def jToArray : Option Json → List Json
  | some (.arr a) => a
  | _ => []

/-- `query_to_json` (default_vm_image_vault.cpp:57). Note: the type field is
written under the key "query_type". -/
def query_to_json (q : Query) : List (String × Json) :=
  [("release", .str q.release),
   ("persistent", .bool q.persistent),
   ("remote_name", .str q.remote_name),
   ("query_type", .int q.query_type.toInt)]

/-- `image_to_json` (default_vm_image_vault.cpp:67). -/
def image_to_json (i : VMImage) : List (String × Json) :=
  [("path", .str i.image_path),
   ("kernel_path", .str i.kernel_path),
   ("initrd_path", .str i.initrd_path),
   ("id", .str i.id),
   ("original_release", .str i.original_release),
   ("current_release", .str i.current_release),
   ("release_date", .str i.release_date),
   ("aliases", .arr (i.aliases.map (fun a => .obj [("alias", .str a)])))]

/-- `record_to_json` (default_vm_image_vault.cpp:90). -/
def record_to_json (r : VaultRecord) : List (String × Json) :=
  [("image", .obj (image_to_json r.image)),
   ("query", .obj (query_to_json r.query)),
   ("last_accessed", .int r.last_accessed)]

/-- The template `persist_records` (default_vm_image_vault.cpp:683): the JSON
document written for a catalog. -/
def persistRecords (recs : List (String × VaultRecord)) : List (String × Json) :=
  recs.map (fun kr => (kr.1, .obj (record_to_json kr.2)))

/-- The body of the per-entry loop of `load_db`
(default_vm_image_vault.cpp:119-171); `none` models the `return {}` aborts.
`now` is the value of `std::chrono::system_clock::now()` at load time.
Note: the type field is read from the key "type". -/
def load_record (now : Int) (v : Json) : Option VaultRecord :=
  let record := jToObject (some v)
  if record.isEmpty then none else
  let image := jToObject (jGet record "image")
  if image.isEmpty then none else
  match jToString (jGet image "path") with
  | none => none
  | some image_path =>
    let kernel_path := (jToString (jGet image "kernel_path")).getD ""
    let initrd_path := (jToString (jGet image "initrd_path")).getD ""
    let image_id := (jToString (jGet image "id")).getD ""
    let original_release := (jToString (jGet image "original_release")).getD ""
    let current_release := (jToString (jGet image "current_release")).getD ""
    let release_date := (jToString (jGet image "release_date")).getD ""
    let aliases := (jToArray (jGet image "aliases")).map
      (fun e => (jToString (jGet (jToObject (some e)) "alias")).getD "")
    let query := jToObject (jGet record "query")
    if query.isEmpty then none else
    let release := (jToString (jGet query "release")).getD ""
    match jToBool (jGet query "persistent") with
    | none => none
    | some persistent =>
      let remote_name := (jToString (jGet query "remote_name")).getD ""
      let query_type := QueryType.ofInt (jToInt (jGet query "type"))
      let last_accessed_count := jToDouble (jGet record "last_accessed")
      let last_accessed := if last_accessed_count = 0 then now else last_accessed_count
      some
        { image := { image_path, kernel_path, initrd_path, id := image_id,
                     original_release, current_release, release_date, aliases },
          query := { name := "", release, persistent, remote_name, query_type },
          last_accessed }

/-- The entry loop of `load_db`: one malformed entry aborts the whole load. -/
def load_entries (now : Int) : List (String × Json) → Option (List (String × VaultRecord))
  | [] => some []
  | (k, v) :: t =>
    match load_record now v with
    | none => none
    | some r =>
      match load_entries now t with
      | none => none
      | some rest => some ((k, r) :: rest)

/-- `load_db` (default_vm_image_vault.cpp:99). The input is `none` when the
file is missing or unparsable (`doc.isNull()`); on any malformed entry the
whole catalog loads as empty. -/
def load_db (doc : Option Json) (now : Int) : List (String × VaultRecord) :=
  match doc with
  | none => []
  | some d =>
    let records := jToObject (some d)
    if records.isEmpty then [] else
    match load_entries now records with
    | none => []
    | some l => l

/-- C++ exceptions surfaced by the vault. `createImage` is
`mp::CreateImageException` (wrapping the inner message, cpp:483); every other
`std::runtime_error` is `runtime`. `inProgressWait` marks the one control path
not given sequential semantics: blocking on another thread's in-progress
future (cpp:398-411), which is modelled by the transition system below. -/
inductive Err where
  | runtime (msg : String)
  | createImage (msg : String)
  | inProgressWait
deriving DecidableEq, Repr

inductive FetchType where
  | ImageOnly
  | ImageKernelAndInitrd
deriving DecidableEq, Repr

/-- The `QDateTime` returned by `URLDownloader::last_modified`: its validity,
its `toString()` rendering and its `toString("yyyyMMdd")` rendering. -/
structure LastMod where
  valid : Bool
  str : String
  ymd : String
deriving DecidableEq, Repr

/-- The external collaborators and ambient constants of one vault call:
image hosts (keyed by remote as built in the constructor, cpp:259-265),
downloader, hash and xz oracles, platform policy flags, directory roots,
expiry span and the current clock reading. -/
structure Env where
  remoteHosts : List (String × (Query → Option VMImageInfo))
  hosts : List (Query → Option VMImageInfo)
  download : String → Except String String
  sha256 : String → String
  xzDecode : String → String
  lastModified : String → LastMod
  isImageUrlSupported : Bool
  isRemoteSupported : String → Bool
  isAliasSupported : String → String → Bool
  instancesDir : String
  imagesDir : String
  expiryTicks : Int
  now : Int

/-- The mutable state of a `DefaultVMImageVault`: the two catalogs, the
in-progress fetch keys, the filesystem (path to content), the two persisted
JSON documents, and counters of downloader / host invocations. -/
structure VaultState where
  prepared : List (String × VaultRecord)
  instances : List (String × VaultRecord)
  inProgress : List String
  fs : List (String × String)
  imagesDoc : List (String × Json)
  instancesDoc : List (String × Json)
  downloads : Nat
  infoCalls : Nat

/-- `QFileInfo::fileName`: the part after the last slash. -/
def fileNameOf (p : String) : String :=
  String.mk (((splitOnChar '/' p.data).getLast?).getD [])

/-- `QFileInfo::dir` / `absoluteDir`: the part before the last slash. -/
def dirOf (p : String) : String :=
  String.intercalate "/" ((splitOnChar '/' p.data).dropLast.map String.mk)

/-- `mp::utils::make_dir(root, name)`: the path of the created directory. -/
def makeDirPath (root name : String) : String :=
  root ++ "/" ++ name

/-- `delete_file` (cpp:191); `QFile("").remove()` is a no-op. -/
def delete_file (p : String) (fs : List (String × String)) : List (String × String) :=
  if p = "" then fs else aerase p fs

/-- `copy` (cpp:176): empty source gives an empty path, a missing source
throws, and `QFile::copy` silently refuses to overwrite an existing target
(its return value is ignored by the code). -/
def copyFile (file_name outDir : String) (fs : List (String × String)) :
    Except Err (String × List (String × String)) :=
  if file_name = "" then .ok ("", fs)
  else
    match alookup file_name fs with
    | none => .error (.runtime (file_name ++ " missing"))
    | some c =>
      let new_path := outDir ++ "/" ++ fileNameOf file_name
      match alookup new_path fs with
      | some _ => .ok (new_path, fs)
      | none => .ok (new_path, aset new_path c fs)

/-- `remove_source_images` (cpp:197). -/
def remove_source_images (source_image prepared_image : VMImage)
    (fs : List (String × String)) : List (String × String) :=
  let fs1 := if source_image.image_path ≠ prepared_image.image_path
    then delete_file source_image.image_path fs else fs
  let fs2 := if source_image.kernel_path ≠ prepared_image.kernel_path
    then delete_file source_image.kernel_path fs1 else fs1
  if source_image.initrd_path ≠ prepared_image.initrd_path
    then delete_file source_image.initrd_path fs2 else fs2

/-- `verify_image_download` (cpp:208): stream the file through SHA-256 and
compare with the expected hash (unreadable-file failure collapses with the
unopenable-file failure). -/
def verify_image_download (env : Env) (fs : List (String × String))
    (image_path image_hash : String) : Except Err Unit :=
  match alookup image_path fs with
  | none => .error (.runtime "Cannot open image file for computing hash")
  | some c =>
    if env.sha256 c = image_hash then .ok ()
    else .error (.runtime "Downloaded image hash does not match")

/-- `URLDownloader::download_to` at a call site: one downloader invocation,
writing the fetched content on success. -/
def downloadTo (env : Env) (url path : String) (st : VaultState) :
    (Except Err Unit) × VaultState :=
  let st1 := {st with downloads := st.downloads + 1}
  match env.download url with
  | .error m => (.error (.runtime m), st1)
  | .ok c => (.ok (), {st1 with fs := aset path c st1.fs})

/-- `info_for` (cpp:651): non-empty remote names resolve through the remote
map (an unknown remote or a miss on the mapped host is fatal); an empty
remote name consults the hosts in registration order. -/
def info_for (env : Env) (q : Query) : Except Err VMImageInfo :=
  if q.remote_name ≠ "" then
    match alookup q.remote_name env.remoteHosts with
    | none => .error (.runtime ("Remote \"" ++ q.remote_name ++ "\" is unknown."))
    | some h =>
      match h q with
      | some i => .ok i
      | none => .error (.runtime ("Unable to find an image matching \"" ++ q.release ++ "\""))
  else
    match env.hosts.findSome? (fun h => h q) with
    | some i => .ok i
    | none => .error (.runtime ("Unable to find an image matching \"" ++ q.release ++ "\""))

/-- `info_for` at a call site, counting the host consultation. -/
def callInfo (env : Env) (q : Query) (st : VaultState) :
    (Except Err VMImageInfo) × VaultState :=
  (info_for env q, {st with infoCalls := st.infoCalls + 1})

/-- `image_instance_from` (cpp:604): copy image, kernel and initrd (in that
order) into the per-instance directory; the copy inherits the metadata and
clears `aliases`. -/
def image_instance_from (env : Env) (instance_name : String)
    (prepared_image : VMImage) (st : VaultState) :
    (Except Err VMImage) × VaultState :=
  let output_dir := makeDirPath env.instancesDir instance_name
  match copyFile prepared_image.image_path output_dir st.fs with
  | .error e => (.error e, st)
  | .ok (ip, fs1) =>
    match copyFile prepared_image.kernel_path output_dir fs1 with
    | .error e => (.error e, {st with fs := fs1})
    | .ok (kp, fs2) =>
      match copyFile prepared_image.initrd_path output_dir fs2 with
      | .error e => (.error e, {st with fs := fs2})
      | .ok (inp, fs3) =>
        (.ok { image_path := ip, kernel_path := kp, initrd_path := inp,
               id := prepared_image.id,
               original_release := prepared_image.original_release,
               current_release := prepared_image.current_release,
               release_date := prepared_image.release_date,
               aliases := [] },
         {st with fs := fs3})

/-- `extract_image_from` (cpp:572): decode a local `.xz` source straight into
the instance directory, stripping every `.xz` occurrence from the file name
(`QString::remove` removes all occurrences). The decoder's failure on a
missing source is collapsed to one runtime error. -/
def extract_image_from (env : Env) (instance_name : String) (source_image : VMImage)
    (st : VaultState) : (Except Err VMImage) × VaultState :=
  let output_dir := makeDirPath env.instancesDir instance_name
  let image_name := removeXzS (fileNameOf source_image.image_path)
  let image_path := output_dir ++ "/" ++ image_name
  match alookup source_image.image_path st.fs with
  | none => (.error (.runtime "Cannot open xz file for decoding"), st)
  | some c =>
    (.ok {source_image with image_path := image_path},
     {st with fs := aset image_path (env.xzDecode c) st.fs})

/-- `extract_downloaded_image` (cpp:590): decode in place (target name is the
source name with `.xz` removed), then delete the compressed source. -/
def extract_downloaded_image (env : Env) (source_image : VMImage) (st : VaultState) :
    (Except Err VMImage) × VaultState :=
  match alookup source_image.image_path st.fs with
  | none => (.error (.runtime "Cannot open xz file for decoding"), st)
  | some c =>
    let image_path := removeXzS source_image.image_path
    let fs1 := aset image_path (env.xzDecode c) st.fs
    let fs2 := delete_file source_image.image_path fs1
    (.ok {source_image with image_path := image_path}, {st with fs := fs2})

/-- `fetch_kernel_and_initrd` (cpp:620): download kernel then initrd into the
image directory under `DeleteOnException` guards for both paths. -/
def fetch_kernel_and_initrd (env : Env) (info : VMImageInfo) (source_image : VMImage)
    (image_dir : String) (st : VaultState) : (Except Err VMImage) × VaultState :=
  let kp := image_dir ++ "/" ++ fileNameOf info.kernel_location
  let ip := image_dir ++ "/" ++ fileNameOf info.initrd_location
  let s1 := downloadTo env info.kernel_location kp st
  match s1.1 with
  | .error e => (.error e, {s1.2 with fs := delete_file kp (delete_file ip s1.2.fs)})
  | .ok _ =>
    let s2 := downloadTo env info.initrd_location ip s1.2
    match s2.1 with
    | .error e => (.error e, {s2.2 with fs := delete_file kp (delete_file ip s2.2.fs)})
    | .ok _ =>
      (.ok {source_image with kernel_path := kp, initrd_path := ip}, s2.2)

/-- `finalize_image_records` (cpp:635): an empty instance name skips the
instance materialization and record, returning a default `VMImage`; both
catalogs are persisted in every case that is reached without throwing. -/
def finalize_image_records (env : Env) (q : Query) (prepared_image : VMImage)
    (st : VaultState) : (Except Err VMImage) × VaultState :=
  if q.name = "" then
    (.ok emptyVMImage,
     {st with instancesDoc := persistRecords st.instances,
              imagesDoc := persistRecords st.prepared})
  else
    match image_instance_from env q.name prepared_image st with
    | (.error e, st1) => (.error e, st1)
    | (.ok vm, st1) =>
      let inst1 := aset q.name ⟨vm, q, env.now⟩ st1.instances
      (.ok vm,
       {st1 with instances := inst1,
                 instancesDoc := persistRecords inst1,
                 imagesDoc := persistRecords st1.prepared})

/-- `QUrl::isLocalFile` for the URLs the vault receives. -/
def localFileUrl (s : String) : Bool :=
  startsWithS s "file://"

/-- `QUrl::path` of a `file://` URL. -/
def localFilePath (s : String) : String :=
  s.drop 7

/-- The http image directory name (cpp:342-344):
`filename.section(".", 0, -3 or -2)` keeps all dot-separated fields but the
last one (two for `.xz` names), then the `yyyyMMdd` of `last_modified` is
appended. -/
def imageDirNameFor (image_filename : String) (lm : LastMod) : String :=
  let parts := (splitOnChar '.' image_filename.data).map String.mk
  let keep := if endsWithS image_filename ".xz" then parts.length - 2 else parts.length - 1
  String.intercalate "." (parts.take keep) ++ "-" ++ lm.ymd

/-- Outcome of the non-alias branch body (cpp:281-374): `early` is the return
at cpp:331 (cached http image still fresh), `through` falls through to the
common instance-record tail at cpp:376. -/
inductive NonAliasOut where
  | early (vm : VMImage)
  | through (vm : VMImage)
deriving DecidableEq, Repr

/-- Kernel/initrd step shared by the branches (cpp:303-310, 354-361): resolve
the default kernel query and download kernel and initrd next to the image. -/
def kernelStep (env : Env) (ft : FetchType) (name : String) (source_image : VMImage)
    (image_dir : String) (st : VaultState) : (Except Err VMImage) × VaultState :=
  if ft = .ImageKernelAndInitrd then
    let kernel_query : Query :=
      { name := name, release := "default", persistent := false,
        remote_name := "", query_type := .Alias }
    match callInfo env kernel_query st with
    | (.error e, st1) => (.error e, st1)
    | (.ok info, st1) => fetch_kernel_and_initrd env info source_image image_dir st1
  else (.ok source_image, st)

/-- The download-and-prepare phase of the http sub-branch (cpp:351-373),
guarded by `DeleteOnException` on the image path chosen at cpp:351. -/
def httpDownloadPhase (env : Env) (ft : FetchType) (q : Query)
    (prepare : VMImage → VMImage) (hash : String) (lm : LastMod)
    (source_image : VMImage) (st : VaultState) : (Except Err NonAliasOut) × VaultState :=
  let guardPath := source_image.image_path
  let s1 := downloadTo env q.release source_image.image_path st
  match s1.1 with
  | .error e => (.error e, {s1.2 with fs := delete_file guardPath s1.2.fs})
  | .ok _ =>
    match kernelStep env ft q.name source_image (dirOf source_image.image_path) s1.2 with
    | (.error e, st2) => (.error e, {st2 with fs := delete_file guardPath st2.fs})
    | (.ok source2, st2) =>
      let s3 := if endsWithS source2.image_path ".xz"
        then extract_downloaded_image env source2 st2
        else (.ok source2, st2)
      match s3 with
      | (.error e, st3) => (.error e, {st3 with fs := delete_file guardPath st3.fs})
      | (.ok source3, st3) =>
        let vm0 := prepare source3
        let vm : VMImage := {vm0 with release_date := lm.str}
        let prepared1 := aset hash ⟨vm, q, env.now⟩ st3.prepared
        let st4 := {st3 with prepared := prepared1,
                             fs := remove_source_images source3 vm st3.fs}
        let st5 := {st4 with imagesDoc := persistRecords st4.prepared}
        match image_instance_from env q.name vm st5 with
        | (.error e, st6) => (.error e, {st6 with fs := delete_file guardPath st6.fs})
        | (.ok vmi, st6) => (.ok (.through vmi), st6)

/-- The non-alias branch body (cpp:281-374). -/
def fetchNonAliasBody (env : Env) (ft : FetchType) (q : Query)
    (prepare : VMImage → VMImage) (st : VaultState) : (Except Err NonAliasOut) × VaultState :=
  if env.isImageUrlSupported = false then
    (.error (.runtime "http and file based images are not supported"), st)
  else if localFileUrl q.release then
    let p := localFilePath q.release
    if (alookup p st.fs).isNone then
      (.error (.runtime ("Custom image `" ++ p ++ "` does not exist.")), st)
    else
      let source0 : VMImage := {emptyVMImage with image_path := p}
      let s1 := if endsWithS p ".xz"
        then extract_image_from env q.name source0 st
        else image_instance_from env q.name source0 st
      match s1 with
      | (.error e, st1) => (.error e, st1)
      | (.ok source1, st1) =>
        match kernelStep env ft q.name source1 (dirOf source1.image_path) st1 with
        | (.error e, st2) => (.error e, st2)
        | (.ok source2, st2) =>
          let vm := prepare source2
          (.ok (.through vm), {st2 with fs := remove_source_images source2 vm st2.fs})
  else
    let hash := env.sha256 q.release
    let lm := env.lastModified q.release
    match alookup hash st.prepared with
    | some record =>
      if lm.valid && (lm.str = record.image.release_date) then
        let st1 := {st with prepared :=
          (aset hash {record with last_accessed := env.now} st.prepared)}
        match finalize_image_records env q record.image st1 with
        | (.error e, st2) => (.error e, st2)
        | (.ok vm, st2) => (.ok (.early vm), st2)
      else
        httpDownloadPhase env ft q prepare hash lm record.image st
    | none =>
      let image_filename := fileNameOf q.release
      let image_dir := makeDirPath env.imagesDir (imageDirNameFor image_filename lm)
      let source_image : VMImage :=
        {emptyVMImage with id := hash, image_path := image_dir ++ "/" ++ image_filename}
      httpDownloadPhase env ft q prepare hash lm source_image st

/-- The prepared-catalog scan of the alias branch (cpp:416-422): the first
record of the same remote whose key equals `id` or whose image aliases
contain the queried release. -/
def preparedHit (l : List (String × VaultRecord)) (q : Query) (id : String) :
    Option (String × VaultRecord) :=
  l.find? (fun kr => kr.2.query.remote_name == q.remote_name &&
    (id == kr.1 || kr.2.image.aliases.contains q.release))

/-- The body of the alias fetch future before exception wrapping
(cpp:458-479): download, verify against `info.id`, optionally fetch kernel
and initrd, optionally decompress, prepare, drop replaced sources. -/
def aliasFetchSteps (env : Env) (ft : FetchType) (prepare : VMImage → VMImage)
    (info : VMImageInfo) (id : String) (source_image : VMImage) (image_dir : String)
    (st : VaultState) : (Except Err VMImage) × VaultState :=
  let s1 := downloadTo env info.image_location source_image.image_path st
  match s1.1 with
  | .error e => (.error e, s1.2)
  | .ok _ =>
    match verify_image_download env s1.2.fs source_image.image_path id with
    | .error e => (.error e, s1.2)
    | .ok _ =>
      let s2 := if ft = .ImageKernelAndInitrd
        then fetch_kernel_and_initrd env info source_image image_dir s1.2
        else (.ok source_image, s1.2)
      match s2 with
      | (.error e, st2) => (.error e, st2)
      | (.ok source2, st2) =>
        let s3 := if endsWithS source2.image_path ".xz"
          then extract_downloaded_image env source2 st2
          else (.ok source2, st2)
        match s3 with
        | (.error e, st3) => (.error e, st3)
        | (.ok source3, st3) =>
          let prepared_image := prepare source3
          (.ok prepared_image,
           {st3 with fs := remove_source_images source3 prepared_image st3.fs})

/-- `catch (const std::exception& e) throw CreateImageException(e.what())`
(cpp:481-484). -/
def wrapCreate : Err → Err
  | .runtime m => .createImage m
  | e => e

/-- The miss path of the alias branch (cpp:444-499): choose the image
directory, seed the source image, register the fetch future under `id`,
run it (sequential semantics for the single caller), and on success insert
the prepared record, finalize and erase the in-progress entry. The
`DeleteOnException` guard of cpp:455 holds the image path chosen there. -/
def aliasMissFetch (env : Env) (ft : FetchType) (q : Query)
    (prepare : VMImage → VMImage) (info : VMImageInfo) (id : String)
    (st : VaultState) : (Except Err VMImage) × VaultState :=
  let image_dir := makeDirPath env.imagesDir (info.release ++ "-" ++ info.version)
  let source_image : VMImage :=
    {emptyVMImage with
      id := id,
      image_path := image_dir ++ "/" ++ fileNameOf info.image_location,
      original_release := info.release_title,
      aliases := info.aliases}
  let guardPath := source_image.image_path
  let st1 := {st with inProgress := id :: st.inProgress}
  match aliasFetchSteps env ft prepare info id source_image image_dir st1 with
  | (.error e, st2) => (.error (wrapCreate e), {st2 with fs := delete_file guardPath st2.fs})
  | (.ok prepared_image, st2) =>
    let st3 := {st2 with prepared := aset id ⟨prepared_image, q, env.now⟩ st2.prepared}
    match finalize_image_records env q prepared_image st3 with
    | (.error e, st4) => (.error e, {st4 with fs := delete_file guardPath st4.fs})
    | (.ok vm, st4) =>
      (.ok vm, {st4 with inProgress := st4.inProgress.erase id})

/-- The alias branch (cpp:381-500). A hit in the prepared catalog bumps
`last_accessed` and finalizes; if finalization throws, the loop breaks and
the code falls through to a fresh fetch (cpp:433-439). An in-progress entry
for `id` would make this caller block on the shared future; that concurrent
path has no sequential semantics here and surfaces as `Err.inProgressWait`
(it is modelled by the transition system below). -/
def fetchAliasBranch (env : Env) (ft : FetchType) (q : Query)
    (prepare : VMImage → VMImage) (st : VaultState) : (Except Err VMImage) × VaultState :=
  match callInfo env q st with
  | (.error e, st0) => (.error e, st0)
  | (.ok info, st0) =>
    if env.isRemoteSupported q.remote_name = false then
      (.error (.runtime (q.remote_name ++
        " is not a supported remote. Please use `multipass find` for supported images.")), st0)
    else if env.isAliasSupported q.release q.remote_name = false then
      (.error (.runtime (q.release ++
        " is not a supported alias. Please use `multipass find` for supported image aliases.")), st0)
    else
      let id := info.id
      if st0.inProgress.contains id then (.error .inProgressWait, st0)
      else
        let scanned : Option VMImage × VaultState :=
          if q.name ≠ "" then
            match preparedHit st0.prepared q id with
            | some (key, record) =>
              let st1 := {st0 with prepared :=
                (aset key {record with last_accessed := env.now} st0.prepared)}
              match finalize_image_records env q record.image st1 with
              | (.ok vm, st2) => (some vm, st2)
              | (.error _, st2) => (none, st2)
            | none => (none, st0)
          else (none, st0)
        match scanned with
        | (some vm, st2) => (.ok vm, st2)
        | (none, st2) => aliasMissFetch env ft q prepare info id st2

/-- `DefaultVMImageVault::fetch_image` (cpp:268-501): fast path on a known
instance name, then the non-alias branch with its common instance-record
tail (cpp:376-379), or the alias branch. -/
def fetch_image (env : Env) (ft : FetchType) (q : Query)
    (prepare : VMImage → VMImage) (st : VaultState) : (Except Err VMImage) × VaultState :=
  match alookup q.name st.instances with
  | some record => (.ok record.image, st)
  | none =>
    if q.query_type ≠ .Alias then
      match fetchNonAliasBody env ft q prepare st with
      | (.error e, st1) => (.error e, st1)
      | (.ok (.early vm), st1) => (.ok vm, st1)
      | (.ok (.through vm), st1) =>
        let inst1 := aset q.name ⟨vm, q, env.now⟩ st1.instances
        (.ok vm, {st1 with instances := inst1, instancesDoc := persistRecords inst1})
    else
      fetchAliasBranch env ft q prepare st

/-- `DefaultVMImageVault::remove` (cpp:503): with an instance record present,
recursively remove the instance directory (here: every file under it), erase
the record, persist the instance catalog. -/
def remove (env : Env) (name : String) (st : VaultState) : VaultState :=
  match alookup name st.instances with
  | none => st
  | some _ =>
    let dir := makeDirPath env.instancesDir name
    let fs1 := st.fs.filter (fun e => !(startsWithS e.1 (dir ++ "/")))
    let inst1 := aerase name st.instances
    {st with fs := fs1, instances := inst1, instancesDoc := persistRecords inst1}

/-- `DefaultVMImageVault::has_record_for` (cpp:517). -/
def has_record_for (st : VaultState) (name : String) : Bool :=
  (alookup name st.instances).isSome

/-- The expiry test of `prune_expired_images` (cpp:528-529). -/
def record_expired (env : Env) (r : VaultRecord) : Bool :=
  r.query.query_type == .Alias && !r.query.persistent &&
    decide (r.last_accessed + env.expiryTicks ≤ env.now)

/-- `DefaultVMImageVault::prune_expired_images` (cpp:522): for each expired
record whose image file exists, remove its enclosing directory; then erase
the expired records and persist the prepared catalog. -/
def prune_expired_images (env : Env) (st : VaultState) : VaultState :=
  let fs1 := st.prepared.foldl
    (fun fs kr =>
      if record_expired env kr.2 then
        if (alookup kr.2.image.image_path fs).isSome then
          fs.filter (fun e => !(startsWithS e.1 (dirOf kr.2.image.image_path ++ "/")))
        else fs
      else fs)
    st.fs
  let prepared1 := st.prepared.filter (fun kr => !record_expired env kr.2)
  {st with fs := fs1, prepared := prepared1, imagesDoc := persistRecords prepared1}

/-- The key-collection loop of `update_images` (cpp:550-562): an alias record
is considered only when its key does not start with its stored release
(`key.compare(0, release.length(), release) != 0`), and is collected when
the host's current `info.id` differs from the key. A host failure propagates
(the loop does not catch). -/
def staleKeysGo (env : Env) : List (String × VaultRecord) → Except Err (List String)
  | [] => .ok []
  | (k, r) :: t =>
    if r.query.query_type == .Alias && !(k.take r.query.release.length == r.query.release) then
      match info_for env r.query with
      | .error e => .error e
      | .ok i =>
        match staleKeysGo env t with
        | .error e => .error e
        | .ok rest => .ok (if i.id ≠ k then k :: rest else rest)
    else staleKeysGo env t

/-- A value-initialized `mp::VaultRecord`, as produced by `operator[]` on a
missing key. -/
def defaultVaultRecord : VaultRecord :=
  { image := emptyVMImage,
    query := { name := "", release := "", persistent := false, remote_name := "",
               query_type := .Alias },
    last_accessed := 0 }

/-- The refresh loop of `update_images` (cpp:564-569): for each collected
key, look the record up in the current catalog (`operator[]` would
default-insert a missing key) and replay its stored query through
`fetch_image`. -/
def updateLoop (env : Env) (ft : FetchType) (prepare : VMImage → VMImage) :
    List String → VaultState → (Except Err Unit) × VaultState
  | [], st => (.ok (), st)
  | k :: rest, st =>
    let pick : VaultRecord × VaultState :=
      match alookup k st.prepared with
      | some r => (r, st)
      | none => (defaultVaultRecord, {st with prepared := aset k defaultVaultRecord st.prepared})
    match fetch_image env ft pick.1.query prepare pick.2 with
    | (.error e, st2) => (.error e, st2)
    | (.ok _, st2) => updateLoop env ft prepare rest st2

/-- `DefaultVMImageVault::update_images` (cpp:547). -/
def update_images (env : Env) (ft : FetchType) (prepare : VMImage → VMImage)
    (st : VaultState) : (Except Err Unit) × VaultState :=
  match staleKeysGo env st.prepared with
  | .error e => (.error e, st)
  | .ok keys => updateLoop env ft prepare keys st

/-- Program counter of one `fetch_image` caller in the concurrent alias
protocol (cpp:396-499): `start` is before taking `fetch_mutex`; `awaitOwn`
awaits a future this caller registered (cpp:487-490); `waitShared` awaits a
future found in the map (cpp:398-404); `done` has returned. -/
inductive CPc where
  | start
  | awaitOwn
  | waitShared
  | done
deriving DecidableEq, Repr

/-- Shared state of two concurrent alias `fetch_image` calls for the same
`id` (distinct non-empty instance names), plus the worker running the fetch
future. Lock-protected regions of the code are single transitions. `inProg`:
the `in_progress_image_fetches` map has the entry for `id`; `futDone`: the
future's body has finished (successfully, in the scenario modelled);
`downloads`: number of `download_to` invocations for the image; `prepared`:
the prepared catalog has a record under `id`; `instA`/`instB`: each caller's
instance record exists. -/
structure CState where
  pcA : CPc
  pcB : CPc
  inProg : Bool
  futDone : Bool
  downloads : Nat
  prepared : Bool
  instA : Bool
  instB : Bool
deriving DecidableEq, Repr

/-- Transitions of one caller. From `start`, atomically under `fetch_mutex`
(cpp:396-488): an in-progress entry sends the caller to `waitShared`; else a
prepared-catalog hit (the names are non-empty and the record's remote and key
match the query) finalizes this caller's instance and returns; else the
future is created and registered before the lock is released. From
`awaitOwn`, once the future is done (cpp:492-497, again under the lock):
insert the prepared record, finalize the instance, erase the in-progress
entry. From `waitShared` (cpp:406-409): bump the prepared record
(`operator[]` inserts if absent), finalize the instance. -/
def cstepThread (isA : Bool) (s : CState) : List CState :=
  let pc := if isA then s.pcA else s.pcB
  let setPc : CState → CPc → CState :=
    fun s' p => if isA then {s' with pcA := p} else {s' with pcB := p}
  let setInst : CState → CState :=
    fun s' => if isA then {s' with instA := true} else {s' with instB := true}
  match pc with
  | .start =>
    if s.inProg then [setPc s .waitShared]
    else if s.prepared then [setPc (setInst s) .done]
    else [setPc {s with inProg := true} .awaitOwn]
  | .awaitOwn =>
    if s.futDone then [setPc (setInst {s with prepared := true, inProg := false}) .done]
    else []
  | .waitShared =>
    if s.futDone then [setPc (setInst {s with prepared := true}) .done]
    else []
  | .done => []

/-- The worker executing the registered fetch future (cpp:457-485): one
`download_to` invocation, verification and preparation succeed. -/
def cstepWorker (s : CState) : List CState :=
  if s.inProg && !s.futDone then
    [{s with downloads := s.downloads + 1, futDone := true}]
  else []

/-- All transitions enabled in a state. -/
def cnext (s : CState) : List CState :=
  cstepThread true s ++ cstepThread false s ++ cstepWorker s

/-- Both callers before their first lock acquisition, nothing fetched. -/
def cInit : CState :=
  { pcA := .start, pcB := .start, inProg := false, futDone := false,
    downloads := 0, prepared := false, instA := false, instB := false }

/-- Breadth-first closure of the reachable states. -/
def creach : Nat → List CState
  | 0 => [cInit]
  | n + 1 => let r := creach n; (r ++ r.flatMap cnext).dedup

def cfinal (s : CState) : Bool :=
  s.pcA == .done && s.pcB == .done

/-- One step of the interleaving. -/
def CStep (s t : CState) : Prop := t ∈ cnext s

/-- Reachability from the initial state of the two-caller scenario. -/
def CReachable (t : CState) : Prop := Relation.ReflTransGen CStep cInit t

/-! Concrete example data used to exercise the model. -/

/-- A sample image info served for the alias `bionic` by the remote
`release`. -/
def exInfo : VMImageInfo :=
  { id := "deadbeef", release := "bionic", release_title := "Ubuntu 18.04 LTS",
    version := "20190101", aliases := ["bionic"],
    image_location := "http://host/b.img", kernel_location := "http://host/k",
    initrd_location := "http://host/i", size := 100 }

/-- A sample host serving `exInfo` for release `bionic`. -/
def exHost : Query → Option VMImageInfo :=
  fun q => if q.release = "bionic" then some exInfo else none

/-- A sample environment: the hash oracle maps the healthy download
`goodbytes` to `exInfo.id` and everything else off. -/
def exEnv : Env :=
  { remoteHosts := [("release", exHost)], hosts := [exHost],
    download := fun _ => .ok "goodbytes",
    sha256 := fun s => if s = "goodbytes" then "deadbeef" else "bad-" ++ s,
    xzDecode := fun s => "xz-" ++ s,
    lastModified := fun _ => { valid := true, str := "2019-01-01", ymd := "20190101" },
    isImageUrlSupported := true,
    isRemoteSupported := fun _ => true,
    isAliasSupported := fun _ _ => true,
    instancesDir := "/data/vault/instances",
    imagesDir := "/cache/vault/images",
    expiryTicks := 14, now := 1000 }

/-- `exEnv` with a downloader that yields corrupted bytes. -/
def exEnvBad : Env :=
  {exEnv with download := fun _ => .ok "corrupt"}

/-- An alias query for instance `vm1`. -/
def exQuery : Query :=
  { name := "vm1", release := "bionic", persistent := false,
    remote_name := "release", query_type := .Alias }

/-- A vault with empty catalogs, no in-progress fetches, an empty disk. -/
def exEmptyState : VaultState :=
  { prepared := [], instances := [], inProgress := [], fs := [],
    imagesDoc := [], instancesDoc := [], downloads := 0, infoCalls := 0 }

/-- A sample materialized instance image for `vm1`. -/
def exInstRecord : VaultRecord :=
  ⟨{emptyVMImage with image_path := "/data/vault/instances/vm1/b.img", id := "deadbeef"},
   exQuery, 500⟩

/-- A vault that already knows instance `vm1`. -/
def exStateWithInstance : VaultState :=
  {exEmptyState with instances := [("vm1", exInstRecord)]}

/-- A persisted entry value whose `last_accessed` field holds 0. -/
def exZeroEntry : Json :=
  .obj [("image", .obj (image_to_json {emptyVMImage with image_path := "/cache/i.img"})),
        ("query", .obj (query_to_json
          { name := "", release := "bionic", persistent := false,
            remote_name := "release", query_type := .Alias })),
        ("last_accessed", .int 0)]

/-- The prepared-catalog record used to exhibit the round-trip failure:
its query type is `LocalFile`. -/
def c5Record : VaultRecord :=
  { image := {emptyVMImage with image_path := "/cache/vault/images/x-20190101/x.img",
                                id := "deadbeef"},
    query := { name := "", release := "file:///x.img", persistent := false,
               remote_name := "", query_type := .LocalFile },
    last_accessed := 5 }

/-- An expired, non-persistent prepared alias record. -/
def exPreparedExpired : VaultRecord :=
  { image := {emptyVMImage with image_path := "/cache/vault/images/bionic-20190101/b.img",
                                id := "deadbeef"},
    query := { name := "", release := "bionic", persistent := false,
               remote_name := "release", query_type := .Alias },
    last_accessed := 900 }

/-- A persistent prepared alias record of the same age. -/
def exPreparedPersistent : VaultRecord :=
  { image := {emptyVMImage with image_path := "/cache/vault/images/xenial-20160101/x.img",
                                id := "cafe"},
    query := { name := "", release := "xenial", persistent := true,
               remote_name := "release", query_type := .Alias },
    last_accessed := 900 }

/-- A vault holding one expired and one persistent prepared record. -/
def exPruneState : VaultState :=
  {exEmptyState with
    prepared := [("deadbeef", exPreparedExpired), ("cafe", exPreparedPersistent)],
    fs := [("/cache/vault/images/bionic-20190101/b.img", "goodbytes")]}

/-- A host whose current image id is `ffff` for every query. -/
def c7Info : VMImageInfo := {exInfo with id := "ffff"}

def c7Host : Query → Option VMImageInfo := fun _ => some c7Info

def c7Env : Env := {exEnv with remoteHosts := [("release", c7Host)], hosts := [c7Host]}

/-- A prepared record whose stored release `ab` is a prefix of its key
`abcd`. -/
def c7Record : VaultRecord :=
  { image := {emptyVMImage with image_path := "/cache/vault/images/ab-1/ab.img", id := "abcd"},
    query := { name := "", release := "ab", persistent := false,
               remote_name := "release", query_type := .Alias },
    last_accessed := 0 }

/-- A vault holding only the release-prefixed record. -/
def c7State : VaultState := {exEmptyState with prepared := [("abcd", c7Record)]}

/-- A prepared record that really is stale: key `oldid`, release `bionic`. -/
def c7StaleRecord : VaultRecord :=
  { image := {emptyVMImage with image_path := "/cache/vault/images/bionic-old/b.img",
                                id := "oldid"},
    query := { name := "", release := "bionic", persistent := false,
               remote_name := "release", query_type := .Alias },
    last_accessed := 0 }

/-- A local-file query with an empty instance name. -/
def q10 : Query :=
  { name := "", release := "file:///tmp/base.img", persistent := false,
    remote_name := "", query_type := .LocalFile }

/-- A vault whose disk holds the local source image. -/
def st10 : VaultState := {exEmptyState with fs := [("/tmp/base.img", "rootfs")]}

/-- The per-instance copy the local-file branch materializes for the empty
name: it lands under `<instances>//`. -/
def vm10 : VMImage := {emptyVMImage with image_path := "/data/vault/instances//base.img"}

/-- The state after the local-file body: the copy exists next to the source. -/
def st11 : VaultState :=
  {exEmptyState with
    fs := [("/tmp/base.img", "rootfs"), ("/data/vault/instances//base.img", "rootfs")]}

/-- After caller A registered the fetch future. -/
def cS1 : CState :=
  { pcA := .awaitOwn, pcB := .start, inProg := true, futDone := false,
    downloads := 0, prepared := false, instA := false, instB := false }

/-- After the worker ran the future: one download, done. -/
def cS2 : CState := {cS1 with downloads := 1, futDone := true}

/-- After caller A finalized: prepared record inserted, entry erased. -/
def cS3 : CState :=
  { pcA := .done, pcB := .start, inProg := false, futDone := true,
    downloads := 1, prepared := true, instA := true, instB := false }

/-- After caller B hit the prepared record: both callers served. -/
def cFinalState : CState := {cS3 with pcB := .done, instB := true}

deriving instance DecidableEq for Except

/-! Association-list lemmas. -/

theorem alookup_aset_self (k : String) (v : α) (l : List (String × α)) :
    alookup k (aset k v l) = some v := by
  induction l with
  | nil => simp [aset, alookup]
  | cons h t ih =>
    by_cases hk : h.1 = k
    · simp [aset, hk, alookup]
    · simp [aset, hk, alookup, ih]

theorem alookup_aset_ne (k k' : String) (v : α) (l : List (String × α)) (h : k' ≠ k) :
    alookup k (aset k' v l) = alookup k l := by
  induction l with
  | nil => simp [aset, alookup, h]
  | cons hd t ih =>
    by_cases hk : hd.1 = k'
    · simp [aset, hk, alookup, h]
    · simp [aset, hk, alookup, ih]

theorem alookup_aerase_self (k : String) (l : List (String × α)) :
    alookup k (aerase k l) = none := by
  induction l with
  | nil => simp [aerase, alookup]
  | cons h t ih =>
    by_cases hk : h.1 = k
    · simp [aerase, hk, ih]
    · simp [aerase, hk, alookup, ih]

theorem alookup_aerase_ne (k k' : String) (l : List (String × α)) (h : k' ≠ k) :
    alookup k (aerase k' l) = alookup k l := by
  induction l with
  | nil => simp [aerase]
  | cons hd t ih =>
    by_cases hk : hd.1 = k'
    · simp [aerase, hk, alookup, h, ih]
    · simp [aerase, hk, alookup, ih]

/-! Claim theorems. -/

/-- C4: a query whose name has an entry in the instance catalog makes
`fetch_image` return that record's `VMImage` unchanged with the whole vault
state untouched (so both catalogs, the filesystem and the downloader / host
call counters are unchanged), and a repeated call returns the same
`VMImage` again. -/
theorem fetch_image_known_instance (env : Env) (ft : FetchType) (q : Query)
    (prepare : VMImage → VMImage) (st : VaultState) (r : VaultRecord)
    (h : alookup q.name st.instances = some r) :
    fetch_image env ft q prepare st = (.ok r.image, st) ∧
    fetch_image env ft q prepare (fetch_image env ft q prepare st).2 = (.ok r.image, st) := by
  have h1 : fetch_image env ft q prepare st = (.ok r.image, st) := by
    unfold fetch_image
    rw [h]
  exact ⟨h1, by rw [h1]; exact h1⟩

/-- Witness for C4 at a concrete vault. -/
theorem fetch_image_known_instance_witness :
    fetch_image exEnv .ImageOnly exQuery (fun v => v) exStateWithInstance =
      (.ok exInstRecord.image, exStateWithInstance) ∧
    fetch_image exEnv .ImageOnly exQuery (fun v => v)
        (fetch_image exEnv .ImageOnly exQuery (fun v => v) exStateWithInstance).2 =
      (.ok exInstRecord.image, exStateWithInstance) :=
  fetch_image_known_instance exEnv .ImageOnly exQuery (fun v => v) exStateWithInstance
    exInstRecord (by rfl)

/-- C9: a loaded catalog entry whose stored `last_accessed` tick count is 0 —
including a missing `last_accessed` field, whose `toDouble` is 0 — gets
`last_accessed` equal to the clock reading at load time, so its expiry clock
restarts at every load. -/
theorem load_record_restarts_zero_last_accessed (now : Int) (v : Json) (r : VaultRecord)
    (h0 : jToDouble (jGet (jToObject (some v)) "last_accessed") = 0)
    (h : load_record now v = some r) :
    r.last_accessed = now := by
  simp only [load_record] at h
  split at h
  · exact absurd h (by simp)
  · split at h
    · exact absurd h (by simp)
    · split at h
      · exact absurd h (by simp)
      · split at h
        · exact absurd h (by simp)
        · split at h
          · exact absurd h (by simp)
          · injection h with h2
            subst h2
            simp [h0]

/-- Witness for C9 at a concrete entry with a stored tick count of 0. -/
theorem load_record_restarts_zero_last_accessed_witness :
    ((load_record 424242 exZeroEntry).getD defaultVaultRecord).last_accessed = 424242 := by
  have h : load_record 424242 exZeroEntry =
      some ((load_record 424242 exZeroEntry).getD defaultVaultRecord) := by rfl
  exact load_record_restarts_zero_last_accessed 424242 exZeroEntry
    ((load_record 424242 exZeroEntry).getD defaultVaultRecord) (by decide) h

/-- C5 (evidence of the defect): persisting a catalog holding a record with
`query_type = LocalFile` and loading the persisted document yields the same
catalog except that `query_type` has collapsed to `Alias`: `query_to_json`
writes the field under the key `query_type` while `load_db` reads the key
`type`, whose absence reads as 0. The other fields (including the non-zero
`last_accessed` tick count 5) survive. -/
theorem catalog_roundtrip_drops_query_type :
    load_db (some (.obj (persistRecords [("deadbeef", c5Record)]))) 777 =
      [("deadbeef", {c5Record with query := {c5Record.query with query_type := .Alias}})] ∧
    c5Record.query.query_type ≠ QueryType.Alias := by
  exact ⟨by decide, by decide⟩

/-- C2 (evidence of the defect): an alias fetch whose future fails (the
downloaded bytes hash to a value other than `info.id`) propagates
`CreateImageException`, but the in-progress entry registered under the image
id is still in the map when the call completes — the erase at cpp:496 is
only reached on the success path. -/
theorem failed_fetch_leaves_in_progress_entry :
    (fetch_image exEnvBad .ImageOnly exQuery (fun v => v) exEmptyState).1 =
      .error (.createImage "Downloaded image hash does not match") ∧
    (fetch_image exEnvBad .ImageOnly exQuery (fun v => v) exEmptyState).2.inProgress =
      ["deadbeef"] := by
  exact ⟨by decide, by decide⟩

/-- C3: on an alias query that reaches a fresh fetch (no instance record, no
in-progress future, no prepared-catalog hit), a download whose bytes hash to
something other than `info.id` makes `fetch_image` fail with
`CreateImageException` caused by the hash mismatch, leaves the prepared
catalog exactly as it was (no record inserted under the id), and deletes the
partially downloaded file from disk. -/
theorem alias_hash_mismatch_fails_cleanly
    (env : Env) (ft : FetchType) (q : Query) (prepare : VMImage → VMImage)
    (st : VaultState) (info : VMImageInfo) (c : String)
    (hname : alookup q.name st.instances = none)
    (htype : q.query_type = .Alias)
    (hinfo : info_for env q = .ok info)
    (hrem : env.isRemoteSupported q.remote_name = true)
    (halias : env.isAliasSupported q.release q.remote_name = true)
    (hprog : st.inProgress.contains info.id = false)
    (hhit : preparedHit st.prepared q info.id = none)
    (hdl : env.download info.image_location = .ok c)
    (hmis : env.sha256 c ≠ info.id) :
    (fetch_image env ft q prepare st).1 =
      .error (.createImage "Downloaded image hash does not match") ∧
    (fetch_image env ft q prepare st).2.prepared = st.prepared ∧
    alookup
      (makeDirPath env.imagesDir (info.release ++ "-" ++ info.version) ++ "/" ++
        fileNameOf info.image_location)
      (fetch_image env ft q prepare st).2.fs = none := by
  have hpath : makeDirPath env.imagesDir (info.release ++ "-" ++ info.version) ++ "/" ++
      fileNameOf info.image_location ≠ "" := by
    intro h
    have hd := congrArg String.data h
    simp [String.data_append, makeDirPath] at hd
  have hfetch : fetch_image env ft q prepare st =
      aliasMissFetch env ft q prepare info info.id
        {st with infoCalls := st.infoCalls + 1} := by
    simp only [fetch_image, hname, htype, fetchAliasBranch, callInfo, hinfo, hrem, halias,
      hprog, ne_eq, not_true_eq_false, if_false, Bool.false_eq_true, reduceCtorEq,
      ite_false]
    by_cases hqn : q.name = ""
    · simp [hqn]
    · simp [hqn, hhit]
  rw [hfetch]
  simp only [aliasMissFetch, aliasFetchSteps, downloadTo, hdl, verify_image_download,
    alookup_aset_self, hmis, ite_false, wrapCreate, delete_file, hpath, if_neg]
  refine ⟨trivial, trivial, ?_⟩
  exact alookup_aerase_self _ _

/-- Witness for C3: the corrupted-download scenario on a concrete vault. -/
theorem alias_hash_mismatch_fails_cleanly_witness :
    (fetch_image exEnvBad .ImageOnly exQuery (fun v => v) exEmptyState).1 =
      .error (.createImage "Downloaded image hash does not match") ∧
    (fetch_image exEnvBad .ImageOnly exQuery (fun v => v) exEmptyState).2.prepared =
      exEmptyState.prepared ∧
    alookup
      (makeDirPath exEnvBad.imagesDir (exInfo.release ++ "-" ++ exInfo.version) ++ "/" ++
        fileNameOf exInfo.image_location)
      (fetch_image exEnvBad .ImageOnly exQuery (fun v => v) exEmptyState).2.fs = none :=
  alias_hash_mismatch_fails_cleanly exEnvBad .ImageOnly exQuery (fun v => v) exEmptyState
    exInfo "corrupt" (by rfl) (by rfl) (by decide) (by rfl) (by rfl) (by rfl) (by rfl)
    (by rfl) (by decide)

/-- C8: removing a name that has an instance record erases the record (so
`has_record_for` is false afterwards), leaves no file under the instance's
directory on disk, and persists the instance catalog. -/
theorem remove_erases_record_and_directory (env : Env) (st : VaultState)
    (name : String) (r : VaultRecord)
    (h : alookup name st.instances = some r) :
    has_record_for (remove env name st) name = false ∧
    (∀ e ∈ (remove env name st).fs,
      startsWithS e.1 (makeDirPath env.instancesDir name ++ "/") = false) ∧
    (remove env name st).instancesDoc = persistRecords (remove env name st).instances := by
  have hrem : remove env name st =
      { st with
        fs := st.fs.filter
          (fun e => !(startsWithS e.1 (makeDirPath env.instancesDir name ++ "/"))),
        instances := aerase name st.instances,
        instancesDoc := persistRecords (aerase name st.instances) } := by
    simp only [remove, h]
  refine ⟨?_, ?_, ?_⟩
  · rw [hrem]
    simp [has_record_for, alookup_aerase_self]
  · rw [hrem]
    intro e he
    have := (List.mem_filter.mp he).2
    simpa using this
  · rw [hrem]

/-- Witness for C8 at a concrete vault holding instance `vm1` with one file
in its directory. -/
theorem remove_erases_record_and_directory_witness :
    has_record_for
      (remove exEnv "vm1"
        {exStateWithInstance with
          fs := [("/data/vault/instances/vm1/b.img", "goodbytes")]}) "vm1" = false ∧
    (∀ e ∈ (remove exEnv "vm1"
        {exStateWithInstance with
          fs := [("/data/vault/instances/vm1/b.img", "goodbytes")]}).fs,
      startsWithS e.1 (makeDirPath exEnv.instancesDir "vm1" ++ "/") = false) ∧
    (remove exEnv "vm1"
        {exStateWithInstance with
          fs := [("/data/vault/instances/vm1/b.img", "goodbytes")]}).instancesDoc =
      persistRecords
        (remove exEnv "vm1"
          {exStateWithInstance with
            fs := [("/data/vault/instances/vm1/b.img", "goodbytes")]}).instances :=
  remove_erases_record_and_directory exEnv
    {exStateWithInstance with fs := [("/data/vault/instances/vm1/b.img", "goodbytes")]}
    "vm1" exInstRecord (by rfl)

/-- `alookup` misses exactly when no entry bears the key. -/
theorem alookup_none_iff_keys (k : String) (l : List (String × α)) :
    alookup k l = none ↔ ∀ e ∈ l, e.1 ≠ k := by
  induction l with
  | nil => simp [alookup]
  | cons hd t ih =>
    by_cases hk : hd.1 = k
    · simp [alookup, hk]
    · simp [alookup, hk, ih]

/-- Lookup through a value-predicate filter, for duplicate-free keys. -/
theorem alookup_filter_value (p : VaultRecord → Bool) (l : List (String × VaultRecord))
    (k : String) (r : VaultRecord) (hnd : (l.map Prod.fst).Nodup) :
    alookup k (l.filter (fun e => p e.2)) = some r ↔
      alookup k l = some r ∧ p r = true := by
  induction l with
  | nil => simp [alookup]
  | cons hd t ih =>
    simp only [List.map_cons, List.nodup_cons] at hnd
    obtain ⟨hk1, hnd2⟩ := hnd
    by_cases hk : hd.1 = k
    · subst hk
      rw [List.filter_cons]
      cases hp : p hd.2
      · simp only [Bool.false_eq_true, if_false]
        have hnone : alookup hd.1 (t.filter fun e => p e.2) = none := by
          rw [alookup_none_iff_keys]
          intro e he heq
          exact hk1 (heq ▸ List.mem_map_of_mem Prod.fst (List.mem_of_mem_filter he))
        rw [hnone]
        constructor
        · intro h; cases h
        · rintro ⟨h1, h2⟩
          have h1' : some hd.2 = some r := by simpa [alookup] using h1
          obtain rfl : hd.2 = r := by injection h1'
          rw [hp] at h2
          cases h2
      · constructor
        · intro h
          have h' : hd.2 = r := by simpa [alookup] using h
          subst h'
          exact ⟨by simp [alookup], hp⟩
        · rintro ⟨h1, _⟩
          have h' : hd.2 = r := by simpa [alookup] using h1
          subst h'
          simp [alookup]
    · cases hp : p hd.2 <;>
        simp [List.filter_cons, hp, alookup, hk, ih hnd2]

/-- A fold whose step never adds entries only shrinks the accumulator. -/
theorem foldl_subset {β γ : Type} (f : List γ → β → List γ)
    (hf : ∀ fs x e, e ∈ f fs x → e ∈ fs) (l : List β) (fs : List γ) (e : γ)
    (h : e ∈ l.foldl f fs) : e ∈ fs := by
  induction l generalizing fs with
  | nil => simpa using h
  | cons b t ih => exact hf _ _ _ (ih (f fs b) h)

/-- C6: `prune_expired_images` erases exactly the prepared records that are
alias-typed, non-persistent and expired (`last_accessed + expiry ≤ now`);
records that are persistent or not alias-typed survive regardless of age;
the instance catalog is untouched; and the image file of each pruned record
(whose path sits inside its directory) is gone from disk. -/
theorem prune_expired_images_exact (env : Env) (st : VaultState)
    (hnd : (st.prepared.map Prod.fst).Nodup) :
    (∀ k r, alookup k (prune_expired_images env st).prepared = some r ↔
       alookup k st.prepared = some r ∧ record_expired env r = false) ∧
    (prune_expired_images env st).instances = st.instances ∧
    (∀ k r, (k, r) ∈ st.prepared → record_expired env r = true →
       startsWithS r.image.image_path (dirOf r.image.image_path ++ "/") = true →
       ∀ e ∈ (prune_expired_images env st).fs, e.1 ≠ r.image.image_path) := by
  refine ⟨?_, rfl, ?_⟩
  · intro k r
    have : (prune_expired_images env st).prepared =
        st.prepared.filter (fun kr => !record_expired env kr.2) := rfl
    rw [this]
    have h := alookup_filter_value (fun v => !record_expired env v) st.prepared k r hnd
    simpa using h
  · intro k r hmem hexp hsl e he
    obtain ⟨l1, l2, hsplit⟩ := List.append_of_mem hmem
    set step : List (String × String) → (String × VaultRecord) → List (String × String) :=
      fun fs kr =>
        if record_expired env kr.2 then
          if (alookup kr.2.image.image_path fs).isSome then
            fs.filter (fun e => !(startsWithS e.1 (dirOf kr.2.image.image_path ++ "/")))
          else fs
        else fs with hstep
    have hstepsub : ∀ fs x e, e ∈ step fs x → e ∈ fs := by
      intro fs x e h
      rw [hstep] at h
      dsimp only at h
      split at h
      · split at h
        · exact List.mem_of_mem_filter h
        · exact h
      · exact h
    have hfs : (prune_expired_images env st).fs = st.prepared.foldl step st.fs := rfl
    rw [hfs, hsplit, List.foldl_append, List.foldl_cons] at he
    have hafter : ∀ e' ∈ step (l1.foldl step st.fs) (k, r),
        e'.1 ≠ r.image.image_path := by
      intro e' he'
      rw [hstep] at he'
      dsimp only at he'
      rw [hexp] at he'
      simp only [if_pos rfl] at he'
      cases hlook : (alookup r.image.image_path (l1.foldl step st.fs)).isSome with
      | false =>
        rw [hlook] at he'
        simp only [Bool.false_eq_true, if_false] at he'
        have hnone : alookup r.image.image_path (l1.foldl step st.fs) = none :=
          Option.not_isSome_iff_eq_none.mp (by rw [hlook]; simp)
        exact (alookup_none_iff_keys _ _).mp hnone e' he'
      | true =>
        rw [hlook] at he'
        simp only [if_pos rfl] at he'
        intro heq
        have := (List.mem_filter.mp he').2
        rw [heq, hsl] at this
        exact absurd this (by simp)
    exact hafter e (foldl_subset step hstepsub l2 _ e he)

/-- Witness for C6: the expired record goes, the equally old persistent one
stays, the instance catalog is untouched. -/
theorem prune_expired_images_exact_witness :
    (alookup "deadbeef" (prune_expired_images exEnv exPruneState).prepared =
        some exPreparedExpired ↔
      alookup "deadbeef" exPruneState.prepared = some exPreparedExpired ∧
        record_expired exEnv exPreparedExpired = false) ∧
    (alookup "cafe" (prune_expired_images exEnv exPruneState).prepared =
        some exPreparedPersistent ↔
      alookup "cafe" exPruneState.prepared = some exPreparedPersistent ∧
        record_expired exEnv exPreparedPersistent = false) ∧
    (prune_expired_images exEnv exPruneState).instances = exPruneState.instances :=
  ⟨(prune_expired_images_exact exEnv exPruneState (by decide)).1 "deadbeef" exPreparedExpired,
   (prune_expired_images_exact exEnv exPruneState (by decide)).1 "cafe" exPreparedPersistent,
   (prune_expired_images_exact exEnv exPruneState (by decide)).2.1⟩

/-- C7 (amended): the keys `update_images` refreshes are exactly the prepared
alias records whose key does not start with the stored query's release and
whose key differs from the `info.id` currently served by the host — records
whose key starts with their stored release (the
`key.compare(0, release.length(), release) != 0` guard) are skipped even when
the host reports a different id. -/
theorem update_stale_keys_exact (env : Env) (l : List (String × VaultRecord))
    (keys : List String) (h : staleKeysGo env l = .ok keys) (k : String) :
    k ∈ keys ↔ ∃ r, (k, r) ∈ l ∧ r.query.query_type = .Alias ∧
      k.take r.query.release.length ≠ r.query.release ∧
      ∃ i, info_for env r.query = .ok i ∧ i.id ≠ k := by
  induction l generalizing keys with
  | nil =>
    simp only [staleKeysGo, Except.ok.injEq] at h
    subst h
    simp
  | cons hd t ih =>
    obtain ⟨k', r'⟩ := hd
    simp only [staleKeysGo] at h
    split at h
    case isTrue hc =>
      rw [Bool.and_eq_true, beq_iff_eq, Bool.not_eq_eq_eq_not, Bool.not_true,
        beq_eq_false_iff_ne] at hc
      obtain ⟨hty, htake⟩ := hc
      split at h
      case h_1 e heq => cases h
      case h_2 i heq =>
        split at h
        case h_1 e heq2 => cases h
        case h_2 rest heq2 =>
          have hkeys : keys = if i.id ≠ k' then k' :: rest else rest := by
            injection h with h'; rw [h']
          subst hkeys
          by_cases hid : i.id = k'
          · simp only [hid, ne_eq, not_true_eq_false, if_false]
            rw [ih rest heq2]
            constructor
            · rintro ⟨r, hr, hrest⟩
              exact ⟨r, List.mem_cons_of_mem _ hr, hrest⟩
            · rintro ⟨r, hr, h1, h2, i', hinfo, hne⟩
              rcases List.mem_cons.mp hr with hcase | hmem
              · exfalso
                obtain ⟨rfl, rfl⟩ := Prod.mk.injEq .. ▸ hcase
                rw [heq] at hinfo
                injection hinfo with hii
                exact hne (by rw [← hii, hid])
              · exact ⟨r, hmem, h1, h2, i', hinfo, hne⟩
          · simp only [ne_eq, hid, not_false_eq_true, if_true, List.mem_cons]
            constructor
            · rintro (rfl | hmem)
              · exact ⟨r', Or.inl rfl, hty, htake, i, heq, hid⟩
              · obtain ⟨r, hr, hrest⟩ := (ih rest heq2).mp hmem
                exact ⟨r, Or.inr hr, hrest⟩
            · rintro ⟨r, hr, h1, h2, i', hinfo, hne⟩
              rcases hr with hcase | hmem
              · left
                obtain ⟨rfl, rfl⟩ := Prod.mk.injEq .. ▸ hcase
                rfl
              · right
                exact (ih rest heq2).mpr ⟨r, hmem, h1, h2, i', hinfo, hne⟩
    case isFalse hc =>
      rw [ih keys h]
      constructor
      · rintro ⟨r, hr, hrest⟩
        exact ⟨r, List.mem_cons_of_mem _ hr, hrest⟩
      · rintro ⟨r, hr, h1, h2, hrest⟩
        rcases List.mem_cons.mp hr with hcase | hmem
        · exfalso
          obtain ⟨rfl, rfl⟩ := Prod.mk.injEq .. ▸ hcase
          exact hc (by rw [Bool.and_eq_true, beq_iff_eq, Bool.not_eq_eq_eq_not, Bool.not_true,
            beq_eq_false_iff_ne]; exact ⟨h1, h2⟩)
        · exact ⟨r, hmem, h1, h2, hrest⟩

/-- C7 (counterexample to the claim as stated): the host currently reports
id `ffff` for the stored query, which differs from the stored key `abcd`, yet
`update_images` collects no key — and hence re-invokes `fetch_image` for no
record, leaving the vault untouched — because `abcd` starts with the stored
release `ab` (the `compare(0, release.length(), release)` guard at cpp:554). -/
theorem update_images_skips_release_prefixed_stale_key :
    staleKeysGo c7Env c7State.prepared = .ok [] ∧
    info_for c7Env c7Record.query = .ok c7Info ∧
    c7Info.id ≠ "abcd" ∧
    (update_images c7Env .ImageOnly (fun v => v) c7State).2 = c7State :=
  ⟨by decide, by decide, by decide, rfl⟩

/-- Witness for C7 (amended) at a concrete stale record: the host now serves
`deadbeef` for `bionic`, the stored key `oldid` neither starts with the
release nor matches, and it is collected. -/
theorem update_stale_keys_exact_witness :
    "oldid" ∈ ["oldid"] ↔ ∃ r, ("oldid", r) ∈ [("oldid", c7StaleRecord)] ∧
      r.query.query_type = .Alias ∧
      "oldid".take r.query.release.length ≠ r.query.release ∧
      ∃ i, info_for exEnv r.query = .ok i ∧ i.id ≠ "oldid" :=
  update_stale_keys_exact exEnv [("oldid", c7StaleRecord)] ["oldid"] (by decide) "oldid"

/-- C10: a non-alias fetch with an empty instance name that falls through to
the common tail at cpp:376 (the local-file path and the fresh-download http
path both do) still inserts an instance record keyed by the empty string,
holding the returned image — whereas `finalize_image_records`, used by the
alias and cached-http paths, skips the instance record and returns an empty
`VMImage` whenever the name is empty. -/
theorem non_alias_empty_name_inserts_record (env : Env) (ft : FetchType) (q : Query)
    (prepare : VMImage → VMImage) (st : VaultState)
    (hname : q.name = "") (htype : q.query_type ≠ .Alias)
    (hinst : alookup "" st.instances = none) :
    (∀ vm st1, fetchNonAliasBody env ft q prepare st = (.ok (.through vm), st1) →
      fetch_image env ft q prepare st =
        (.ok vm, {st1 with
          instances := aset "" ⟨vm, q, env.now⟩ st1.instances,
          instancesDoc := persistRecords (aset "" ⟨vm, q, env.now⟩ st1.instances)})) ∧
    (∀ pi st', finalize_image_records env q pi st' =
      (.ok emptyVMImage, {st' with
        instancesDoc := persistRecords st'.instances,
        imagesDoc := persistRecords st'.prepared})) := by
  constructor
  · intro vm st1 hbody
    rw [fetch_image, hname, hinst]
    simp only [htype, ne_eq, not_false_eq_true, if_true]
    rw [← hname, hbody]
  · intro pi st'
    rw [finalize_image_records, hname]
    simp

/-- Witness for C10: the concrete local-file fetch with empty name registers
an instance record under the empty string; `finalize_image_records` on the
same query would not. -/
theorem non_alias_empty_name_inserts_record_witness :
    fetch_image exEnv .ImageOnly q10 (fun v => v) st10 =
      (.ok vm10, {st11 with
        instances := aset "" ⟨vm10, q10, exEnv.now⟩ st11.instances,
        instancesDoc := persistRecords (aset "" ⟨vm10, q10, exEnv.now⟩ st11.instances)}) ∧
    finalize_image_records exEnv q10 vm10 st10 =
      (.ok emptyVMImage, {st10 with
        instancesDoc := persistRecords st10.instances,
        imagesDoc := persistRecords st10.prepared}) :=
  ⟨(non_alias_empty_name_inserts_record exEnv .ImageOnly q10 (fun v => v) st10 rfl
      (by decide) rfl).1 vm10 st11 (by rfl),
   (non_alias_empty_name_inserts_record exEnv .ImageOnly q10 (fun v => v) st10 rfl
      (by decide) rfl).2 vm10 st10⟩

/-- The reachable-state set of the two-caller protocol has saturated at
depth 5 and is closed under `cnext`. -/
theorem creach_closed : ∀ s ∈ creach 5, ∀ t ∈ cnext s, t ∈ creach 5 := by decide

/-- Every state reachable by the interleaving semantics is in the enumerated
set. -/
theorem creachable_mem (t : CState) (h : CReachable t) : t ∈ creach 5 := by
  induction h with
  | refl => decide
  | tail _ hbc ih => exact creach_closed _ ih _ hbc

/-- C1: in every interleaving of two concurrent alias `fetch_image` calls
for the same image id (with the worker running the registered future), the
downloader is never invoked twice — the in-progress map admits at most one
in-flight fetch per key — and every complete run has exactly one download
with both callers holding their own instance record. -/
theorem concurrent_alias_fetch_downloads_once (t : CState) (h : CReachable t) :
    t.downloads ≤ 1 ∧
    (cfinal t = true → t.downloads = 1 ∧ t.instA = true ∧ t.instB = true) := by
  have hm := creachable_mem t h
  have hall : ∀ s ∈ creach 5, s.downloads ≤ 1 ∧
      (cfinal s = true → s.downloads = 1 ∧ s.instA = true ∧ s.instB = true) := by decide
  exact hall t hm

/-- Witness for C1: an explicit complete interleaving (A registers, the
worker downloads once, A finalizes, B is served from the prepared record). -/
theorem concurrent_alias_fetch_downloads_once_witness :
    cFinalState.downloads ≤ 1 ∧
    (cfinal cFinalState = true →
      cFinalState.downloads = 1 ∧ cFinalState.instA = true ∧ cFinalState.instB = true) := by
  have t1 : CStep cInit cS1 := show cS1 ∈ cnext cInit by decide
  have t2 : CStep cS1 cS2 := show cS2 ∈ cnext cS1 by decide
  have t3 : CStep cS2 cS3 := show cS3 ∈ cnext cS2 by decide
  have t4 : CStep cS3 cFinalState := show cFinalState ∈ cnext cS3 by decide
  have htr : CReachable cFinalState :=
    ((((Relation.ReflTransGen.refl).tail t1).tail t2).tail t3).tail t4
  exact concurrent_alias_fetch_downloads_once cFinalState htr
